import Mathlib

/-!
Shallow embedding of the CoreDNS `forward` plugin's setup code
(`plugin/forward/setup.go`): configuration parsing for the forwarding
engine.  The caddy token stream is modelled per block line as a list of
string tokens; external collaborators (host normalization, transport-tag
extraction, duration parsing, TLS-config construction, the file system)
are threaded through as an explicit `Ext` record of functions, since
their code lives outside this file's source.
-/

namespace ForwardSetup

/-- Error values produced at setup time: caddy's `ArgErr` and the
formatted configuration error messages (`fmt.Errorf` / `c.Errf`). -/
inductive PErr where
  | argErr : PErr
  | errMsg : String → PErr
deriving DecidableEq, Repr

/-- TLS client configuration as far as setup.go manipulates it: the
server name (overridable via `tls_servername`) plus opaque certificate
material produced by `pkgtls.NewTLSConfigFromArgs`. -/
structure TLSConfig where
  serverName : String := ""
  certMaterial : List String := []
deriving DecidableEq, Repr

/-- A selection policy value (`f.p`), fixed at configuration time:
`random`, `round_robin` or `sequential`. -/
inductive Policy where
  | random : Policy
  | roundRobin : Policy
  | sequential : Policy
deriving DecidableEq, Repr

/-- One upstream proxy: address, transport tag, and the per-proxy
settings that `parseStanza` applies after block parsing
(`SetTLSConfig`, `SetExpire`, `health.SetRecursionDesired`). -/
structure Proxy where
  addr : String
  trans : String
  tlsConfig : Option TLSConfig := none
  expire : Int := 0
  recursionDesired : Bool := true
deriving DecidableEq, Repr

/-- `NewProxy(h, trans)`: a fresh proxy for host `h` over transport
`trans`. -/
def NewProxy (h trans : String) : Proxy :=
  { addr := h, trans := trans }

/-- The option sub-record `f.opts`. -/
structure ForwardOpts where
  forceTCP : Bool := false
  preferUDP : Bool := false
  hcRecursionDesired : Bool := true
deriving DecidableEq, Repr

/-- The `Forward` engine configuration object filled in by parsing.
Field types follow the Go struct: `maxfails` is a `uint32` (modelled as
`Nat` kept below `2^32`), durations are `Int` nanosecond counts,
`maxConcurrent` is an `int64`, `maxFailedTries` an `int`. -/
structure Forward where
  fromZone : String := "."
  proxies : List Proxy := []
  ignored : List String := []
  maxfails : Nat := 2
  hcInterval : Int := 500000000
  expire : Int := 10000000000
  tlsConfig : TLSConfig := {}
  tlsServerName : String := ""
  opts : ForwardOpts := {}
  p : Policy := Policy.random
  maxConcurrent : Int := 0
  errLimitExceeded : Option String := none
  maxFailedTries : Int := 0
  index : Nat := 0
deriving DecidableEq, Repr

/-- `New()`: a Forward with default values.  The constructor lives in
`forward.go`, outside the parsed source file; the defaults shown are not
load-bearing for any claim (every claim is about how parsing changes or
rejects fields, never about an untouched default). -/
def New : Forward := {}

/-- `f.Len()`: the number of configured upstream proxies. -/
def Forward.Len (f : Forward) : Nat := f.proxies.length

/-- The package constant `max = 15`, the maximum number of upstreams. -/
def maxUpstreams : Nat := 15

/-- External collaborators of setup.go, threaded as functions:
`norm` is `plugin.Host(·).Normalize()`, `transportOf` is
`parse.Transport` (tag and stripped host), `parseDur` is
`time.ParseDuration` in nanoseconds (`none` = parse error), `tlsFromArgs`
is `pkgtls.NewTLSConfigFromArgs`, and `readFile` returns a file's lines
(`none` = `os.Open` error). -/
structure Ext where
  norm : String → String
  transportOf : String → String × String
  parseDur : String → Option Int
  tlsFromArgs : List String → Except String TLSConfig
  readFile : String → Option (List String)

/-- `strconv.Atoi`: optional sign, decimal digits, error on empty or
non-digit input and on values outside the 64-bit int range. -/
def atoi? (s : String) : Option Int :=
  let p : Int × List Char :=
    match s.toList with
    | '+' :: t => (1, t)
    | '-' :: t => (-1, t)
    | t => (1, t)
  let sign := p.1
  let ds := p.2
  if ds = [] then none
  else if ds.all (fun c => c.isDigit) then
    let v : Nat := ds.foldl (fun a c => a * 10 + (c.toNat - 48)) 0
    let iv : Int := sign * (v : Int)
    if iv < -(2 ^ 63) ∨ iv > 2 ^ 63 - 1 then none else some iv
  else none

/-- `bytes.Index(line, "#")` truncation: discard everything from the
first `#` on. -/
def stripComment (line : String) : String :=
  String.mk (line.toList.takeWhile (fun c => c ≠ '#'))

/-- Worker for `bytes.Fields`: split on whitespace runs, keeping only
non-empty fields; `acc` holds the current field's characters reversed. -/
def fieldsAux (acc : List Char) : List Char → List String
  | [] => if acc = [] then [] else [String.mk acc.reverse]
  | c :: cs =>
    if c.isWhitespace then
      if acc = [] then fieldsAux [] cs
      else String.mk acc.reverse :: fieldsAux [] cs
    else fieldsAux (c :: acc) cs

/-- `bytes.Fields`: split on whitespace, dropping empty fields. -/
def fieldsOf (line : String) : List String :=
  fieldsAux [] line.toList

/-- Worker for `strings.Split(s, "/")`: split at every separator
character, keeping empty components. -/
def splitCharAux (sep : Char) (acc : List Char) : List Char → List String
  | [] => [String.mk acc.reverse]
  | c :: cs =>
    if c = sep then String.mk acc.reverse :: splitCharAux sep [] cs
    else splitCharAux sep (c :: acc) cs

/-- `strings.Split(s, "/")`. -/
def splitSlash (s : String) : List String :=
  splitCharAux '/' [] s.toList

/-- The domain token one `except_file` line contributes, if any: the
line is comment-stripped, must have exactly one whitespace field, and
that field must split on `/` into one component (the whole token) or
three components (the middle one). -/
def lineToDomain? (line : String) : Option String :=
  match fieldsOf (stripComment line) with
  | [tok] =>
    match splitSlash tok with
    | [d] => some d
    | [_, d, _] => some d
    | _ => none
  | _ => none

/-- The scanner loop of the `except_file` case: each line contributes
its domain token (normalized) or nothing. -/
def exceptFileDomains (norm : String → String) (lines : List String) : List String :=
  lines.filterMap (fun l => (lineToDomain? l).map norm)

/-- The destination-protocol error message of `parseStanza`. -/
def transErrMsg (trans host : String) : String :=
  trans ++ " is not supported as a destination protocol in forward: " ++ host

/-- The destination loop of `parseStanza` (lines 104-115): for each
resolved host, extract its transport tag; tags other than `dns`/`tls`
abort with an error naming the protocol, otherwise a proxy is created.
Returns the proxies paired with their transport tags (the Go code keeps
the tags in the parallel `transports` slice). -/
def makeProxies (transportOf : String → String × String) :
    List String → Except PErr (List (Proxy × String))
  | [] => Except.ok []
  | h :: hs =>
    let tp := transportOf h
    if tp.1 = "dns" ∨ tp.1 = "tls" then
      match makeProxies transportOf hs with
      | Except.error e => Except.error e
      | Except.ok rest => Except.ok ((NewProxy tp.2 tp.1, tp.1) :: rest)
    else
      Except.error (PErr.errMsg (transErrMsg tp.1 h))

/-- The `for c.NextArg()` option loop of the `health_check` case: each
remaining token must be `no_rec` (clearing the probe recursion-desired
flag); anything else is an error. -/
def hcOptsLoop (f : Forward) : List String → Except PErr Forward
  | [] => Except.ok f
  | v :: rest =>
    if v = "no_rec" then
      hcOptsLoop { f with opts := { f.opts with hcRecursionDesired := false } } rest
    else
      Except.error (PErr.errMsg ("health_check: unknown option " ++ v))

/-- `parseBlock` driven over one block line of tokens.  caddy's
`c.Val()` is the head token, `c.NextArg()` takes the next same-line
token, `c.RemainingArgs()` takes the rest of the line; a directive that
leaves tokens unconsumed hands them back to the `NextBlock` loop, which
re-enters `parseBlock` on them — hence the tail recursion on the
leftover tokens. -/
def parseBlockLine (ext : Ext) : Forward → List String → Except PErr Forward
  | f, [] => Except.ok f
  | f, name :: rest =>
    if name = "except" then
      if rest = [] then Except.error PErr.argErr
      else Except.ok { f with ignored := f.ignored ++ rest.map ext.norm }
    else if name = "except_file" then
      match rest with
      | [fname] =>
        match ext.readFile fname with
        | none => Except.error (PErr.errMsg ("open " ++ fname ++ ": error"))
        | some ls =>
          Except.ok { f with ignored := f.ignored ++ exceptFileDomains ext.norm ls }
      | _ => Except.error PErr.argErr
    else if name = "max_fails" then
      match rest with
      | [] => Except.error PErr.argErr
      | v :: rest2 =>
        match atoi? v with
        | none => Except.error (PErr.errMsg ("invalid syntax: " ++ v))
        | some n =>
          if n < 0 then Except.error (PErr.errMsg "max_fails cannot be negative")
          else parseBlockLine ext { f with maxfails := n.toNat % 2 ^ 32 } rest2
    else if name = "health_check" then
      match rest with
      | [] => Except.error PErr.argErr
      | v :: rest2 =>
        match ext.parseDur v with
        | none => Except.error (PErr.errMsg ("invalid duration: " ++ v))
        | some dur =>
          if dur < 0 then Except.error (PErr.errMsg "health_check cannot be negative")
          else hcOptsLoop { f with hcInterval := dur } rest2
    else if name = "force_tcp" then
      if rest = [] then Except.ok { f with opts := { f.opts with forceTCP := true } }
      else Except.error PErr.argErr
    else if name = "prefer_udp" then
      if rest = [] then Except.ok { f with opts := { f.opts with preferUDP := true } }
      else Except.error PErr.argErr
    else if name = "tls" then
      if rest.length > 3 then Except.error PErr.argErr
      else
        match ext.tlsFromArgs rest with
        | Except.error m => Except.error (PErr.errMsg m)
        | Except.ok cfg => Except.ok { f with tlsConfig := cfg }
    else if name = "tls_servername" then
      match rest with
      | [] => Except.error PErr.argErr
      | v :: rest2 => parseBlockLine ext { f with tlsServerName := v } rest2
    else if name = "expire" then
      match rest with
      | [] => Except.error PErr.argErr
      | v :: rest2 =>
        match ext.parseDur v with
        | none => Except.error (PErr.errMsg ("invalid duration: " ++ v))
        | some dur =>
          if dur < 0 then Except.error (PErr.errMsg "expire cannot be negative")
          else parseBlockLine ext { f with expire := dur } rest2
    else if name = "policy" then
      match rest with
      | [] => Except.error PErr.argErr
      | v :: rest2 =>
        if v = "random" then parseBlockLine ext { f with p := Policy.random } rest2
        else if v = "round_robin" then
          parseBlockLine ext { f with p := Policy.roundRobin } rest2
        else if v = "sequential" then
          parseBlockLine ext { f with p := Policy.sequential } rest2
        else Except.error (PErr.errMsg ("unknown policy " ++ v))
    else if name = "max_concurrent" then
      match rest with
      | [] => Except.error PErr.argErr
      | v :: rest2 =>
        match atoi? v with
        | none => Except.error (PErr.errMsg ("invalid syntax: " ++ v))
        | some n =>
          if n < 0 then Except.error (PErr.errMsg "max_concurrent cannot be negative")
          else
            parseBlockLine ext
              { f with
                errLimitExceeded := some ("concurrent queries exceeded maximum " ++ v),
                maxConcurrent := n } rest2
    else if name = "retry_failed" then
      match rest with
      | [] => Except.error PErr.argErr
      | v :: rest2 =>
        match atoi? v with
        | none => Except.error (PErr.errMsg ("invalid syntax: " ++ v))
        | some n =>
          if n < 0 then Except.error (PErr.errMsg "retry_failed cannot be negative")
          else if n > (f.proxies.length : Int) then
            Except.error (PErr.errMsg "retry_failed cannot be larger than number of proxies")
          else parseBlockLine ext { f with maxFailedTries := n } rest2
    else Except.error (PErr.errMsg ("unknown property " ++ name))

/-- The `for c.NextBlock()` loop: fold `parseBlockLine` over the block
lines, stopping at the first error. -/
def parseBlocks (ext : Ext) : Forward → List (List String) → Except PErr Forward
  | f, [] => Except.ok f
  | f, l :: ls =>
    match parseBlockLine ext f l with
    | Except.error e => Except.error e
    | Except.ok f2 => parseBlocks ext f2 ls

/-- The TLS configuration effectively applied to TLS proxies: the
stanza's `tlsConfig`, with its server name replaced by `tls_servername`
whenever that option is non-empty (lines 123-125). -/
def effTLS (f : Forward) : TLSConfig :=
  if f.tlsServerName ≠ "" then { f.tlsConfig with serverName := f.tlsServerName }
  else f.tlsConfig

/-- One iteration of the post-block proxy loop (lines 126-133):
`SetTLSConfig` only when the proxy's transport tag is TLS, then
`SetExpire` and `health.SetRecursionDesired` unconditionally. -/
def applyToProxy (cfg : TLSConfig) (expire : Int) (rd : Bool) (pt : Proxy × String) : Proxy :=
  let p := if pt.2 = "tls" then { pt.1 with tlsConfig := some cfg } else pt.1
  { p with expire := expire, recursionDesired := rd }

/-- The whole post-block proxy loop over the proxies paired with their
transport tags. -/
def applyProxySettings (f : Forward) (transports : List String) : List Proxy :=
  (f.proxies.zip transports).map
    (applyToProxy (effTLS f) f.expire f.opts.hcRecursionDesired)

/-- The Forward state entering the block loop: `New()` with the
normalized `from` zone and the proxies built from the destinations. -/
def stanzaInit (ext : Ext) (fromArg : String) (pts : List (Proxy × String)) : Forward :=
  { New with fromZone := ext.norm fromArg, proxies := pts.map Prod.fst }

/-- `parseStanza`: normalize the `from` zone, build proxies from the
resolved destination hosts (`parse.HostPortOrFile` resolution happens
outside this function and is taken as the `toHosts` input), parse the
block lines, then apply the TLS/expire/recursion settings to each
proxy. -/
def parseStanza (ext : Ext) (fromArg : String) (toHosts : List String)
    (blockLines : List (List String)) : Except PErr Forward :=
  if toHosts = [] then Except.error PErr.argErr
  else
    match makeProxies ext.transportOf toHosts with
    | Except.error e => Except.error e
    | Except.ok pts =>
      match parseBlocks ext (stanzaInit ext fromArg pts) blockLines with
      | Except.error e => Except.error e
      | Except.ok f2 =>
        Except.ok { f2 with proxies := applyProxySettings f2 (pts.map Prod.snd) }

/-- The stanza loop of `setup` (lines 30-50): each parsed Forward is
checked against the upstream bound; a stanza over the bound stops the
loop with an error, leaving its plugin and startup hook unregistered,
while every earlier stanza has already been registered.  Returns the
registered stanzas and the error, if any. -/
def setupRun : List Forward → List Forward × Option PErr
  | [] => ([], none)
  | f :: fs =>
    if f.Len > maxUpstreams then
      ([], some (PErr.errMsg "more than 15 TOs configured"))
    else
      let r := setupRun fs
      (f :: r.1, r.2)

/-- Whether an `Except` result is an error. -/
def isErr {α : Type} : Except PErr α → Bool
  | Except.error _ => true
  | Except.ok _ => false

/-- A concrete transport-tag extractor standing in for `parse.Transport`
in witnesses: it recognizes the `tls://`, `dns://` and `grpc://` scheme
labels and defaults to plain DNS.  Used only to instantiate theorems at
concrete inputs; the theorems themselves quantify over the extractor. -/
def transportOfSimple (s : String) : String × String :=
  match s.toList with
  | 't' :: 'l' :: 's' :: ':' :: '/' :: '/' :: r => ("tls", String.mk r)
  | 'd' :: 'n' :: 's' :: ':' :: '/' :: '/' :: r => ("dns", String.mk r)
  | 'g' :: 'r' :: 'p' :: 'c' :: ':' :: '/' :: '/' :: r => ("grpc", String.mk r)
  | _ => ("dns", s)

/-- A concrete `Ext` record for instantiating theorems: identity
normalization, the simple transport extractor, integer durations, a
trivially succeeding TLS-config builder, and an empty file system. -/
def extDefault : Ext where
  norm := fun s => s
  transportOf := transportOfSimple
  parseDur := atoi?
  tlsFromArgs := fun a => Except.ok { certMaterial := a }
  readFile := fun _ => none

/-- A Forward with 16 configured proxies (for instantiating the
upstream-bound theorems). -/
def f16 : Forward :=
  { New with proxies := List.replicate 16 (NewProxy "10.0.0.1" "dns") }

/-- A Forward with a single configured proxy (for instantiating the
`retry_failed` theorems). -/
def f1p : Forward :=
  { New with proxies := [NewProxy "10.0.0.1" "dns"] }

/-- The parsed Forward of the concrete stanza used to instantiate the
TLS-application theorem: zone `example.org`, destinations `tls://h1`
and `1.2.3.4`, block `tls_servername srv`. -/
def gWitness : Forward :=
  { New with
    fromZone := "example.org",
    proxies := [
      { addr := "h1", trans := "tls",
        tlsConfig := some { serverName := "srv", certMaterial := [] },
        expire := 10000000000, recursionDesired := true },
      { addr := "1.2.3.4", trans := "dns", tlsConfig := none,
        expire := 10000000000, recursionDesired := true }],
    tlsServerName := "srv" }

/-- The parsed Forward of the concrete stanza used to instantiate the
normalization theorem: zone `example.org`, one plain destination, and
an `except` block with two names. -/
def gW9 : Forward :=
  { New with
    fromZone := "example.org",
    proxies := [
      { addr := "1.2.3.4", trans := "dns", tlsConfig := none,
        expire := 10000000000, recursionDesired := true }],
    ignored := ["a.example.", "b.example."] }

instance {ε α : Type} [DecidableEq ε] [DecidableEq α] : DecidableEq (Except ε α) :=
  fun a b =>
    match a, b with
    | Except.error e, Except.error e2 =>
      if h : e = e2 then isTrue (by rw [h]) else isFalse (by intro hc; cases hc; exact h rfl)
    | Except.error _, Except.ok _ => isFalse (by intro hc; cases hc)
    | Except.ok _, Except.error _ => isFalse (by intro hc; cases hc)
    | Except.ok v, Except.ok v2 =>
      if h : v = v2 then isTrue (by rw [h]) else isFalse (by intro hc; cases hc; exact h rfl)

/-- C1: for every parsed configuration stanza, if the number of
configured destination targets exceeds 15 then setup returns an error
and the engine's startup hook is never registered for that stanza;
with 15 or fewer destinations the check passes.  Formally: every
registered stanza is within the bound, a stanza over the bound forces
an error result, and when all stanzas are within the bound setup
succeeds registering all of them. -/
theorem C1_setup_upstream_bound (fs : List Forward) :
    (∀ g ∈ (setupRun fs).1, g.Len ≤ maxUpstreams) ∧
    ((∃ f ∈ fs, maxUpstreams < f.Len) → (setupRun fs).2.isSome = true) ∧
    ((∀ f ∈ fs, f.Len ≤ maxUpstreams) → setupRun fs = (fs, none)) := by
  induction fs with
  | nil =>
    refine ⟨?_, ?_, ?_⟩
    · intro g hg; simp [setupRun] at hg
    · rintro ⟨f, hf, _⟩; simp at hf
    · intro _; rfl
  | cons f rest ih =>
    obtain ⟨ih1, ih2, ih3⟩ := ih
    by_cases h : f.Len > maxUpstreams
    · refine ⟨?_, ?_, ?_⟩
      · intro g hg; simp [setupRun, if_pos h] at hg
      · intro _; simp [setupRun, if_pos h]
      · intro hall; exact absurd (hall f (by simp)) (by omega)
    · refine ⟨?_, ?_, ?_⟩
      · intro g hg
        simp only [setupRun, if_neg h] at hg
        rcases List.mem_cons.mp hg with hg | hg
        · subst hg; omega
        · exact ih1 g hg
      · rintro ⟨x, hx, hxlen⟩
        simp only [setupRun, if_neg h]
        rcases List.mem_cons.mp hx with hx | hx
        · subst hx; omega
        · exact ih2 ⟨x, hx, hxlen⟩
      · intro hall
        have hr := ih3 (fun x hx => hall x (List.mem_cons_of_mem _ hx))
        simp only [setupRun, if_neg h, hr]

/-- Witness for C1: one stanza with 16 upstreams makes setup fail, and
one stanza within the bound is registered with no error. -/
theorem C1_setup_upstream_bound_witness :
    (setupRun [f16]).2.isSome = true ∧ setupRun [f1p] = ([f1p], none) := by
  constructor
  · exact (C1_setup_upstream_bound [f16]).2.1 ⟨f16, by simp, by decide⟩
  · refine (C1_setup_upstream_bound [f1p]).2.2 ?_
    intro f hf
    rcases List.mem_singleton.mp hf with rfl
    decide

/-- Per-line contribution of the `except_file` scanner loop, written
out over the comment-stripping and field/slash splitting steps. -/
theorem lineContribution (norm : String → String) (l : String) :
    (lineToDomain? l).map norm =
      (match fieldsOf (stripComment l) with
       | [tok] =>
         match splitSlash tok with
         | [d] => some (norm d)
         | [_, d, _] => some (norm d)
         | _ => none
       | _ => none) := by
  unfold lineToDomain?
  rcases h : fieldsOf (stripComment l) with _ | ⟨tok, rest⟩
  · simp
  · rcases rest with _ | ⟨r2, rs⟩
    · rcases h2 : splitSlash tok with _ | ⟨d1, _ | ⟨d2, _ | ⟨d3, _ | _⟩⟩⟩ <;> simp [h2]
    · simp

/-- C2 counterexample: the line `a/b` survives comment stripping
unchanged and is a single-field non-comment line, yet it contributes no
domain token at all (its `/`-split has two components), contradicting
the claim that every remaining non-comment line contributes exactly
one token. -/
theorem C2_except_file_counterexample :
    stripComment "a/b" = "a/b" ∧ fieldsOf "a/b" = ["a/b"] ∧
    exceptFileDomains (fun s => s) ["a/b"] = [] := by
  refine ⟨by decide, by decide, by decide⟩

/-- C2 (amended): on every `except_file` line, text from the first `#`
onward is discarded; the line then contributes exactly one normalized
domain token when what remains has exactly one whitespace-separated
field whose `/`-split has one component (the whole token) or three
components (the middle one), and contributes nothing otherwise. -/
theorem C2_except_file_lines (norm : String → String) (lines : List String) :
    exceptFileDomains norm lines =
      lines.filterMap (fun line =>
        match fieldsOf (stripComment line) with
        | [tok] =>
          match splitSlash tok with
          | [d] => some (norm d)
          | [_, d, _] => some (norm d)
          | _ => none
        | _ => none) := by
  induction lines with
  | nil => rfl
  | cons l ls ih =>
    simp only [exceptFileDomains, List.filterMap_cons] at *
    rw [lineContribution norm l, ih]

/-- C3: `retry_failed N` is accepted exactly when `0 ≤ N ≤` the number
of configured destinations; a negative N or an N over the destination
count is a setup-time error, and an accepted N is stored as the
per-query retry limit (`maxFailedTries`). -/
theorem C3_retry_failed (ext : Ext) (f : Forward) (s : String) (n : Int)
    (hA : atoi? s = some n) :
    (n < 0 → isErr (parseBlockLine ext f ["retry_failed", s]) = true) ∧
    ((f.proxies.length : Int) < n → isErr (parseBlockLine ext f ["retry_failed", s]) = true) ∧
    (0 ≤ n → n ≤ (f.proxies.length : Int) →
      parseBlockLine ext f ["retry_failed", s] = Except.ok { f with maxFailedTries := n }) := by
  have key : parseBlockLine ext f ["retry_failed", s] =
      (match atoi? s with
       | none => Except.error (PErr.errMsg ("invalid syntax: " ++ s))
       | some n =>
         if n < 0 then Except.error (PErr.errMsg "retry_failed cannot be negative")
         else if (f.proxies.length : Int) < n then
           Except.error (PErr.errMsg "retry_failed cannot be larger than number of proxies")
         else Except.ok { f with maxFailedTries := n }) := rfl
  refine ⟨?_, ?_, ?_⟩
  · intro hneg
    rw [key, hA]
    simp [isErr, hneg]
  · intro hgt
    rw [key, hA]
    by_cases hneg : n < 0
    · simp [isErr, hneg]
    · simp [isErr, hneg, hgt]
  · intro h0 hle
    rw [key, hA]
    have h1 : ¬ (n < 0) := by omega
    have h2 : ¬ ((f.proxies.length : Int) < n) := by omega
    simp [h1, h2]

/-- Witness for C3: with one configured proxy, `retry_failed 1` is
accepted and stored, `retry_failed 2` and `retry_failed -1` are
rejected. -/
theorem C3_retry_failed_witness :
    parseBlockLine extDefault f1p ["retry_failed", "1"] =
      Except.ok { f1p with maxFailedTries := 1 } ∧
    isErr (parseBlockLine extDefault f1p ["retry_failed", "2"]) = true ∧
    isErr (parseBlockLine extDefault f1p ["retry_failed", "-1"]) = true := by
  refine ⟨?_, ?_, ?_⟩
  · exact (C3_retry_failed extDefault f1p "1" 1 (by decide)).2.2 (by decide) (by decide)
  · exact (C3_retry_failed extDefault f1p "2" 2 (by decide)).2.1 (by decide)
  · exact (C3_retry_failed extDefault f1p "-1" (-1) (by decide)).1 (by decide)

/-- C4 counterexample: a stanza block setting both `force_tcp` and
`prefer_udp` is accepted by parsing (no mutual-exclusion check exists),
contradicting the claim that no configuration setting both is accepted
at setup time. -/
theorem C4_counterexample :
    parseBlocks extDefault New [["force_tcp"], ["prefer_udp"]] =
      Except.ok { New with opts := { New.opts with forceTCP := true, preferUDP := true } } := by
  decide

/-- C4 (amended): `force_tcp` and `prefer_udp` are independent
argument-free flags; each merely sets its own option, and a block
setting both is accepted with both flags stored — parsing performs no
mutual-exclusion check between them. -/
theorem C4_force_tcp_prefer_udp (ext : Ext) (f : Forward) :
    parseBlockLine ext f ["force_tcp"] =
      Except.ok { f with opts := { f.opts with forceTCP := true } } ∧
    parseBlockLine ext f ["prefer_udp"] =
      Except.ok { f with opts := { f.opts with preferUDP := true } } ∧
    parseBlocks ext f [["force_tcp"], ["prefer_udp"]] =
      Except.ok { f with opts := { f.opts with forceTCP := true, preferUDP := true } } := by
  refine ⟨rfl, rfl, rfl⟩

/-- C5: if some destination's transport tag is neither plain DNS nor
TLS, the destination loop fails with an error naming the unsupported
protocol; on success every destination yields exactly one proxy built
by `NewProxy` from its stripped host and tag, and every tag is
`dns` or `tls`. -/
theorem C5_destination_transport (tOf : String → String × String) (toHosts : List String) :
    ((∃ h ∈ toHosts, (tOf h).1 ≠ "dns" ∧ (tOf h).1 ≠ "tls") →
      ∃ h ∈ toHosts, (tOf h).1 ≠ "dns" ∧ (tOf h).1 ≠ "tls" ∧
        makeProxies tOf toHosts = Except.error (PErr.errMsg (transErrMsg (tOf h).1 h))) ∧
    (∀ pts, makeProxies tOf toHosts = Except.ok pts →
      pts = toHosts.map (fun h => (NewProxy (tOf h).2 (tOf h).1, (tOf h).1)) ∧
      ∀ pt ∈ pts, pt.2 = "dns" ∨ pt.2 = "tls") := by
  induction toHosts with
  | nil =>
    refine ⟨?_, ?_⟩
    · rintro ⟨h, hmem, _⟩
      simp at hmem
    · intro pts hok
      simp only [makeProxies, Except.ok.injEq] at hok
      subst hok
      exact ⟨by simp, by simp⟩
  | cons h hs ih =>
    obtain ⟨ih1, ih2⟩ := ih
    by_cases hall : (tOf h).1 = "dns" ∨ (tOf h).1 = "tls"
    · refine ⟨?_, ?_⟩
      · rintro ⟨x, hx, hx1, hx2⟩
        rcases List.mem_cons.mp hx with rfl | hx
        · tauto
        · obtain ⟨y, hy, hy1, hy2, heq⟩ := ih1 ⟨x, hx, hx1, hx2⟩
          refine ⟨y, List.mem_cons_of_mem _ hy, hy1, hy2, ?_⟩
          simp only [makeProxies, if_pos hall, heq]
      · intro pts hok
        simp only [makeProxies, if_pos hall] at hok
        rcases hr : makeProxies tOf hs with e | rest
        · simp [hr] at hok
        · simp only [hr, Except.ok.injEq] at hok
          obtain ⟨hrest, hallr⟩ := ih2 rest hr
          subst hok
          constructor
          · simp [hrest]
          · intro pt hpt
            rcases List.mem_cons.mp hpt with rfl | hpt
            · exact hall
            · exact hallr pt hpt
    · push_neg at hall
      have hcond : ¬ ((tOf h).1 = "dns" ∨ (tOf h).1 = "tls") := by tauto
      refine ⟨?_, ?_⟩
      · intro _
        exact ⟨h, List.mem_cons_self h hs, hall.1, hall.2,
          by simp only [makeProxies, if_neg hcond]⟩
      · intro pts hok
        simp only [makeProxies, if_neg hcond] at hok
        cases hok

/-- Witness for C5: a `grpc` destination makes the loop fail, and a
lone TLS destination yields exactly the proxy list the theorem
describes. -/
theorem C5_destination_transport_witness :
    isErr (makeProxies transportOfSimple ["tls://h1", "grpc://h2"]) = true ∧
    [(NewProxy "h1" "tls", "tls")] =
      ["tls://h1"].map (fun h =>
        (NewProxy (transportOfSimple h).2 (transportOfSimple h).1, (transportOfSimple h).1)) := by
  constructor
  · obtain ⟨h, hmem, h1, h2, heq⟩ :=
      (C5_destination_transport transportOfSimple ["tls://h1", "grpc://h2"]).1
        ⟨"grpc://h2", by decide, by decide, by decide⟩
    rw [heq]
    rfl
  · exact ((C5_destination_transport transportOfSimple ["tls://h1"]).2
      [(NewProxy "h1" "tls", "tls")] (by decide)).1

/-- C6: the `policy` option accepts exactly `random`, `round_robin`
and `sequential`, each storing the corresponding fixed policy value;
any other string is a setup-time error. -/
theorem C6_policy (ext : Ext) (f : Forward) (s : String) :
    (s = "random" →
      parseBlockLine ext f ["policy", s] = Except.ok { f with p := Policy.random }) ∧
    (s = "round_robin" →
      parseBlockLine ext f ["policy", s] = Except.ok { f with p := Policy.roundRobin }) ∧
    (s = "sequential" →
      parseBlockLine ext f ["policy", s] = Except.ok { f with p := Policy.sequential }) ∧
    (s ≠ "random" → s ≠ "round_robin" → s ≠ "sequential" →
      parseBlockLine ext f ["policy", s] =
        Except.error (PErr.errMsg ("unknown policy " ++ s))) := by
  have key : parseBlockLine ext f ["policy", s] =
      (if s = "random" then Except.ok { f with p := Policy.random }
       else if s = "round_robin" then Except.ok { f with p := Policy.roundRobin }
       else if s = "sequential" then Except.ok { f with p := Policy.sequential }
       else Except.error (PErr.errMsg ("unknown policy " ++ s))) := rfl
  refine ⟨?_, ?_, ?_, ?_⟩
  · intro hv; rw [key]; simp [hv]
  · intro hv; rw [key]; simp [hv]
  · intro hv; rw [key]; simp [hv]
  · intro h1 h2 h3; rw [key]; simp [h1, h2, h3]

/-- Witness for C6: the three accepted policy strings store their
policies on a fresh Forward; the string `rr` is rejected. -/
theorem C6_policy_witness :
    parseBlockLine extDefault New ["policy", "random"] =
      Except.ok { New with p := Policy.random } ∧
    parseBlockLine extDefault New ["policy", "round_robin"] =
      Except.ok { New with p := Policy.roundRobin } ∧
    parseBlockLine extDefault New ["policy", "sequential"] =
      Except.ok { New with p := Policy.sequential } ∧
    parseBlockLine extDefault New ["policy", "rr"] =
      Except.error (PErr.errMsg ("unknown policy " ++ "rr")) := by
  refine ⟨?_, ?_, ?_, ?_⟩
  · exact (C6_policy extDefault New "random").1 rfl
  · exact (C6_policy extDefault New "round_robin").2.1 rfl
  · exact (C6_policy extDefault New "sequential").2.2.1 rfl
  · exact (C6_policy extDefault New "rr").2.2.2 (by decide) (by decide) (by decide)

/-- C7: each of the four numeric options rejects a negative parsed
value with a setup-time error and accepts and stores a non-negative
one: `max_fails` (stored through the 32-bit narrowing), `health_check`
and `expire` (durations stored verbatim), and `max_concurrent` (stored
with its limit-exceeded message). -/
theorem C7_negative_numeric_options (ext : Ext) (f : Forward) (s : String) (n : Int) :
    (atoi? s = some n → n < 0 →
      isErr (parseBlockLine ext f ["max_fails", s]) = true) ∧
    (atoi? s = some n → 0 ≤ n →
      parseBlockLine ext f ["max_fails", s] =
        Except.ok { f with maxfails := n.toNat % 2 ^ 32 }) ∧
    (ext.parseDur s = some n → n < 0 →
      isErr (parseBlockLine ext f ["health_check", s]) = true) ∧
    (ext.parseDur s = some n → 0 ≤ n →
      parseBlockLine ext f ["health_check", s] = Except.ok { f with hcInterval := n }) ∧
    (ext.parseDur s = some n → n < 0 →
      isErr (parseBlockLine ext f ["expire", s]) = true) ∧
    (ext.parseDur s = some n → 0 ≤ n →
      parseBlockLine ext f ["expire", s] = Except.ok { f with expire := n }) ∧
    (atoi? s = some n → n < 0 →
      isErr (parseBlockLine ext f ["max_concurrent", s]) = true) ∧
    (atoi? s = some n → 0 ≤ n →
      parseBlockLine ext f ["max_concurrent", s] =
        Except.ok { f with
          errLimitExceeded := some ("concurrent queries exceeded maximum " ++ s),
          maxConcurrent := n }) := by
  have kmf : parseBlockLine ext f ["max_fails", s] =
      (match atoi? s with
       | none => Except.error (PErr.errMsg ("invalid syntax: " ++ s))
       | some n =>
         if n < 0 then Except.error (PErr.errMsg "max_fails cannot be negative")
         else Except.ok { f with maxfails := n.toNat % 2 ^ 32 }) := rfl
  have khc : parseBlockLine ext f ["health_check", s] =
      (match ext.parseDur s with
       | none => Except.error (PErr.errMsg ("invalid duration: " ++ s))
       | some dur =>
         if dur < 0 then Except.error (PErr.errMsg "health_check cannot be negative")
         else Except.ok { f with hcInterval := dur }) := rfl
  have kex : parseBlockLine ext f ["expire", s] =
      (match ext.parseDur s with
       | none => Except.error (PErr.errMsg ("invalid duration: " ++ s))
       | some dur =>
         if dur < 0 then Except.error (PErr.errMsg "expire cannot be negative")
         else Except.ok { f with expire := dur }) := rfl
  have kmc : parseBlockLine ext f ["max_concurrent", s] =
      (match atoi? s with
       | none => Except.error (PErr.errMsg ("invalid syntax: " ++ s))
       | some n =>
         if n < 0 then Except.error (PErr.errMsg "max_concurrent cannot be negative")
         else Except.ok { f with
           errLimitExceeded := some ("concurrent queries exceeded maximum " ++ s),
           maxConcurrent := n }) := rfl
  refine ⟨?_, ?_, ?_, ?_, ?_, ?_, ?_, ?_⟩
  · intro hA hneg; rw [kmf, hA]; simp [isErr, hneg]
  · intro hA hpos; rw [kmf, hA]
    have h1 : ¬ (n < 0) := by omega
    simp [h1]
  · intro hD hneg; rw [khc, hD]; simp [isErr, hneg]
  · intro hD hpos; rw [khc, hD]
    have h1 : ¬ (n < 0) := by omega
    simp [h1]
  · intro hD hneg; rw [kex, hD]; simp [isErr, hneg]
  · intro hD hpos; rw [kex, hD]
    have h1 : ¬ (n < 0) := by omega
    simp [h1]
  · intro hA hneg; rw [kmc, hA]; simp [isErr, hneg]
  · intro hA hpos; rw [kmc, hA]
    have h1 : ¬ (n < 0) := by omega
    simp [h1]

/-- Witness for C7: each of the four options at the concrete value `-1`
is rejected and at `5` is accepted and stored (durations are integers
under `extDefault`). -/
theorem C7_negative_numeric_options_witness :
    isErr (parseBlockLine extDefault New ["max_fails", "-1"]) = true ∧
    parseBlockLine extDefault New ["max_fails", "5"] = Except.ok { New with maxfails := 5 } ∧
    isErr (parseBlockLine extDefault New ["health_check", "-1"]) = true ∧
    parseBlockLine extDefault New ["health_check", "5"] =
      Except.ok { New with hcInterval := 5 } ∧
    isErr (parseBlockLine extDefault New ["expire", "-1"]) = true ∧
    parseBlockLine extDefault New ["expire", "5"] = Except.ok { New with expire := 5 } ∧
    isErr (parseBlockLine extDefault New ["max_concurrent", "-1"]) = true ∧
    parseBlockLine extDefault New ["max_concurrent", "5"] =
      Except.ok { New with
        errLimitExceeded := some ("concurrent queries exceeded maximum " ++ "5"),
        maxConcurrent := 5 } := by
  refine ⟨?_, ?_, ?_, ?_, ?_, ?_, ?_, ?_⟩
  · exact (C7_negative_numeric_options extDefault New "-1" (-1)).1 (by decide) (by decide)
  · exact (C7_negative_numeric_options extDefault New "5" 5).2.1 (by decide) (by decide)
  · exact (C7_negative_numeric_options extDefault New "-1" (-1)).2.2.1 (by decide) (by decide)
  · exact (C7_negative_numeric_options extDefault New "5" 5).2.2.2.1 (by decide) (by decide)
  · exact (C7_negative_numeric_options extDefault New "-1" (-1)).2.2.2.2.1 (by decide) (by decide)
  · exact (C7_negative_numeric_options extDefault New "5" 5).2.2.2.2.2.1 (by decide) (by decide)
  · exact (C7_negative_numeric_options extDefault New "-1" (-1)).2.2.2.2.2.2.1
      (by decide) (by decide)
  · exact (C7_negative_numeric_options extDefault New "5" 5).2.2.2.2.2.2.2
      (by decide) (by decide)

/-- C10: every accepted (non-negative) `max_fails` value N is stored as
N modulo 2^32 because the parsed int is narrowed to a 32-bit unsigned
counter; in particular N = 4294967296 parses successfully and is stored
as 0. -/
theorem C10_max_fails_narrowing (ext : Ext) (f : Forward) (s : String) (n : Int) :
    (atoi? s = some n → 0 ≤ n →
      parseBlockLine ext f ["max_fails", s] =
        Except.ok { f with maxfails := n.toNat % 2 ^ 32 }) ∧
    atoi? "4294967296" = some 4294967296 ∧
    parseBlockLine extDefault New ["max_fails", "4294967296"] =
      Except.ok { New with maxfails := 0 } := by
  have kmf : parseBlockLine ext f ["max_fails", s] =
      (match atoi? s with
       | none => Except.error (PErr.errMsg ("invalid syntax: " ++ s))
       | some n =>
         if n < 0 then Except.error (PErr.errMsg "max_fails cannot be negative")
         else Except.ok { f with maxfails := n.toNat % 2 ^ 32 }) := rfl
  refine ⟨?_, by decide, by decide⟩
  intro hA hpos
  rw [kmf, hA]
  have h1 : ¬ (n < 0) := by omega
  simp [h1]

/-- Witness for C10: instantiating the narrowing at N = 4294967296
yields a stored threshold of 0 (2^32 wraps to zero). -/
theorem C10_max_fails_narrowing_witness :
    parseBlockLine extDefault New ["max_fails", "4294967296"] =
      Except.ok { New with maxfails := (4294967296 : Int).toNat % 2 ^ 32 } := by
  exact (C10_max_fails_narrowing extDefault New "4294967296" 4294967296).1
    (by decide) (by decide)

/-- Elementwise description of the post-block proxy loop: position `i`
holds `applyToProxy` of the pre-application proxy and its transport
tag. -/
theorem applyProxySettings_get (f2 : Forward) (ts : List String) (i : Nat) (q : Proxy)
    (t : String) (h1 : f2.proxies[i]? = some q) (h2 : ts[i]? = some t) :
    (applyProxySettings f2 ts)[i]? =
      some (applyToProxy (effTLS f2) f2.expire f2.opts.hcRecursionDesired (q, t)) := by
  unfold applyProxySettings
  rw [List.getElem?_map]
  have hz : (f2.proxies.zip ts)[i]? = some (q, t) :=
    (List.getElem?_zip_eq_some).mpr ⟨h1, h2⟩
  rw [hz]
  rfl

/-- C8: after a stanza parses successfully, the TLS configuration —
with its server name overridden by `tls_servername` whenever non-empty
— is applied exactly to the proxies whose transport tag is `tls`
(others keep their TLS configuration untouched), while the idle-expiry
duration and the probe recursion-desired flag are applied to every
proxy. -/
theorem C8_tls_expire_application (ext : Ext) (fa : String) (th : List String)
    (bl : List (List String)) (g : Forward)
    (hok : parseStanza ext fa th bl = Except.ok g) :
    ∃ f2 pts, makeProxies ext.transportOf th = Except.ok pts ∧
      parseBlocks ext (stanzaInit ext fa pts) bl = Except.ok f2 ∧
      g.proxies = applyProxySettings f2 (pts.map Prod.snd) ∧
      (f2.tlsServerName ≠ "" → (effTLS f2).serverName = f2.tlsServerName) ∧
      (∀ (i : Nat) (q : Proxy) (t : String),
        f2.proxies[i]? = some q → (pts.map Prod.snd)[i]? = some t →
        ∃ p2 : Proxy, g.proxies[i]? = some p2 ∧
          p2.expire = f2.expire ∧
          p2.recursionDesired = f2.opts.hcRecursionDesired ∧
          (t = "tls" → p2.tlsConfig = some (effTLS f2)) ∧
          (t ≠ "tls" → p2.tlsConfig = q.tlsConfig)) := by
  unfold parseStanza at hok
  by_cases h0 : th = []
  · rw [if_pos h0] at hok
    cases hok
  · rw [if_neg h0] at hok
    rcases hm : makeProxies ext.transportOf th with e | pts
    · rw [hm] at hok
      cases hok
    · simp only [hm] at hok
      rcases hb : parseBlocks ext (stanzaInit ext fa pts) bl with e | f2
      · simp only [hb] at hok
        cases hok
      · simp only [hb, Except.ok.injEq] at hok
        have hg : g = { f2 with proxies := applyProxySettings f2 (pts.map Prod.snd) } := by
          rw [← hok]
        refine ⟨f2, pts, rfl, hb, by rw [hg], ?_, ?_⟩
        · intro hne
          simp [effTLS, hne]
        · intro i q t h1 h2
          refine ⟨applyToProxy (effTLS f2) f2.expire f2.opts.hcRecursionDesired (q, t), ?_, ?_⟩
          · rw [hg]
            exact applyProxySettings_get f2 (pts.map Prod.snd) i q t h1 h2
          · unfold applyToProxy
            by_cases ht : t = "tls"
            · simp [ht]
            · simp [ht]

/-- Witness for C8: a stanza with one TLS and one plain destination and
a `tls_servername` block; the parsed Forward `gWitness` carries the
overridden server name on the TLS proxy only, and expiry/recursion
settings on both. -/
theorem C8_tls_expire_application_witness :
    ∃ f2 pts,
      makeProxies extDefault.transportOf ["tls://h1", "1.2.3.4"] = Except.ok pts ∧
      parseBlocks extDefault (stanzaInit extDefault "example.org" pts)
          [["tls_servername", "srv"]] = Except.ok f2 ∧
      gWitness.proxies = applyProxySettings f2 (pts.map Prod.snd) ∧
      (f2.tlsServerName ≠ "" → (effTLS f2).serverName = f2.tlsServerName) ∧
      (∀ (i : Nat) (q : Proxy) (t : String),
        f2.proxies[i]? = some q → (pts.map Prod.snd)[i]? = some t →
        ∃ p2 : Proxy, gWitness.proxies[i]? = some p2 ∧
          p2.expire = f2.expire ∧
          p2.recursionDesired = f2.opts.hcRecursionDesired ∧
          (t = "tls" → p2.tlsConfig = some (effTLS f2)) ∧
          (t ≠ "tls" → p2.tlsConfig = q.tlsConfig)) := by
  exact C8_tls_expire_application extDefault "example.org" ["tls://h1", "1.2.3.4"]
    [["tls_servername", "srv"]] gWitness (by decide)

/-- The `health_check` option loop touches only `opts`: exclusion list
and zone pass through unchanged. -/
theorem hcOptsLoop_fields (l : List String) (f f2 : Forward)
    (h : hcOptsLoop f l = Except.ok f2) :
    f2.ignored = f.ignored ∧ f2.fromZone = f.fromZone := by
  induction l generalizing f with
  | nil =>
    unfold hcOptsLoop at h
    cases h
    exact ⟨rfl, rfl⟩
  | cons v rest ih =>
    unfold hcOptsLoop at h
    by_cases hv : v = "no_rec"
    · rw [if_pos hv] at h
      have r := ih _ h
      exact ⟨r.1, r.2⟩
    · rw [if_neg hv] at h
      cases h

/-- Every domain in the `except_file` contribution is a normalization
image. -/
theorem mem_exceptFileDomains (norm : String → String) (ls : List String) (d : String)
    (hd : d ∈ exceptFileDomains norm ls) : ∃ t, d = norm t := by
  unfold exceptFileDomains at hd
  obtain ⟨a, _, ha⟩ := List.mem_filterMap.mp hd
  rcases hq : lineToDomain? a with _ | q
  · rw [hq] at ha
    cases ha
  · rw [hq] at ha
    simp only [Option.map_some'] at ha
    cases ha
    exact ⟨q, rfl⟩

/-- Block parsing never changes the stanza zone, and only appends
normalization images to the exclusion list. -/
theorem parseBlockLine_inv (ext : Ext) (f : Forward) (line : List String) :
    ∀ f2, parseBlockLine ext f line = Except.ok f2 →
      f2.fromZone = f.fromZone ∧
      ∀ d ∈ f2.ignored, d ∈ f.ignored ∨ ∃ t, d = ext.norm t := by
  induction f, line using parseBlockLine.induct ext
  all_goals intro f2 h
  all_goals (try simp_all [parseBlockLine, String.reduceEq, reduceIte, reduceCtorEq,
    Except.ok.injEq])
  case case3 =>
    rename_i f0 rst hne
    rw [parseBlockLine.eq_def] at h
    simp [hne] at h
    subst h
    refine ⟨rfl, fun d hd => ?_⟩
    rcases List.mem_append.mp hd with h1 | h1
    · exact Or.inl h1
    · obtain ⟨t, -, rfl⟩ := List.mem_map.mp h1
      exact Or.inr ⟨t, rfl⟩
  case case5 =>
    subst h
    refine ⟨rfl, fun d hd => ?_⟩
    rcases List.mem_append.mp hd with h1 | h1
    · exact Or.inl h1
    · exact Or.inr (mem_exceptFileDomains _ _ _ h1)
  case case6 =>
    rename_i f0 rst hx
    rcases rst with _ | ⟨a, rtl⟩
    · rw [parseBlockLine.eq_def] at h
      simp at h
    · rcases rtl with _ | ⟨b, r2⟩
      · exact absurd rfl (hx a)
      · rw [parseBlockLine.eq_def] at h
        simp at h
  case case10 =>
    rename_i ih
    split at h
    · simp at h
    · exact ih f2 h
  case case14 =>
    split at h
    · simp at h
    · obtain ⟨hi, hz⟩ := hcOptsLoop_fields _ _ _ h
      exact ⟨hz, fun d hd => Or.inl (hi ▸ hd)⟩
  case case15 =>
    subst h
    exact ⟨rfl, fun d hd => Or.inl hd⟩
  case case16 =>
    rename_i f0 rst hne
    rw [parseBlockLine.eq_def] at h
    simp [hne] at h
  case case17 =>
    subst h
    exact ⟨rfl, fun d hd => Or.inl hd⟩
  case case18 =>
    rename_i f0 rst hne
    rw [parseBlockLine.eq_def] at h
    simp [hne] at h
  case case19 =>
    rename_i f0 rst hlen
    rw [parseBlockLine.eq_def] at h
    simp [hlen] at h
  case case20 =>
    rename_i f0 rst m hle hx
    rw [parseBlockLine.eq_def] at h
    have hgt : ¬ (rst.length > 3) := by omega
    simp [hgt, hx] at h
  case case21 =>
    rename_i f0 rst cfg hle hx
    rw [parseBlockLine.eq_def] at h
    have hgt : ¬ (rst.length > 3) := by omega
    simp [hgt, hx, Except.ok.injEq] at h
    subst h
    exact ⟨rfl, fun d hd => Or.inl hd⟩
  case case27 =>
    rename_i ih
    split at h
    · simp at h
    · exact ih f2 h
  case case36 =>
    rename_i ih
    split at h
    · simp at h
    · exact ih f2 h
  case case40 =>
    split at h <;> simp at h
  case case41 =>
    rename_i ih
    split at h
    · simp at h
    · split at h
      · simp at h
      · exact ih f2 h
  case case42 =>
    rename_i nm rst n1 n2 n3 n4 n5 n6 n7 n8 n9 n10 n11 n12
    rw [parseBlockLine.eq_def] at h
    simp [n1, n2, n3, n4, n5, n6, n7, n8, n9, n10, n11, n12] at h

/-- The block loop preserves the zone and only appends normalization
images to the exclusion list. -/
theorem parseBlocks_inv (ext : Ext) (bls : List (List String)) (f f2 : Forward)
    (h : parseBlocks ext f bls = Except.ok f2) :
    f2.fromZone = f.fromZone ∧
    ∀ d ∈ f2.ignored, d ∈ f.ignored ∨ ∃ t, d = ext.norm t := by
  induction bls generalizing f with
  | nil =>
    unfold parseBlocks at h
    cases h
    exact ⟨rfl, fun d hd => Or.inl hd⟩
  | cons l ls ih =>
    unfold parseBlocks at h
    rcases hl : parseBlockLine ext f l with e | fm
    · rw [hl] at h
      cases h
    · simp only [hl] at h
      obtain ⟨hz1, hm1⟩ := parseBlockLine_inv ext f l fm hl
      obtain ⟨hz2, hm2⟩ := ih fm h
      refine ⟨hz2.trans hz1, fun d hd => ?_⟩
      rcases hm2 d hd with hin | him
      · exact hm1 d hin
      · exact Or.inr him

/-- C9: every name stored by parsing — the stanza zone and every
exclusion entry added via `except` or `except_file` — is a fixed point
of the (idempotent) host-normalization function: the stored state never
contains an unnormalized name. -/
theorem C9_normalized_names (ext : Ext) (fa : String) (th : List String)
    (bl : List (List String)) (g : Forward)
    (hidem : ∀ x, ext.norm (ext.norm x) = ext.norm x)
    (hok : parseStanza ext fa th bl = Except.ok g) :
    ext.norm g.fromZone = g.fromZone ∧ ∀ d ∈ g.ignored, ext.norm d = d := by
  unfold parseStanza at hok
  by_cases h0 : th = []
  · rw [if_pos h0] at hok
    cases hok
  · rw [if_neg h0] at hok
    rcases hm : makeProxies ext.transportOf th with e | pts
    · rw [hm] at hok
      cases hok
    · simp only [hm] at hok
      rcases hb : parseBlocks ext (stanzaInit ext fa pts) bl with e | f2
      · simp only [hb] at hok
        cases hok
      · simp only [hb, Except.ok.injEq] at hok
        obtain ⟨hz, hmem⟩ := parseBlocks_inv ext bl (stanzaInit ext fa pts) f2 hb
        have hgz : g.fromZone = f2.fromZone := by rw [← hok]
        have hgi : g.ignored = f2.ignored := by rw [← hok]
        constructor
        · rw [hgz, hz]
          exact hidem fa
        · intro d hd
          rw [hgi] at hd
          rcases hmem d hd with hin | ⟨t, rfl⟩
          · exact absurd hin (by simp [stanzaInit, New])
          · exact hidem t

/-- Witness for C9: under the identity normalization (trivially
idempotent), the concrete stanza with an `except` block yields a
Forward whose zone and exclusion entries are all normalization fixed
points. -/
theorem C9_normalized_names_witness :
    extDefault.norm gW9.fromZone = gW9.fromZone ∧
    ∀ d ∈ gW9.ignored, extDefault.norm d = d := by
  exact C9_normalized_names extDefault "example.org" ["1.2.3.4"]
    [["except", "a.example.", "b.example."]] gW9 (fun x => rfl) (by decide)

end ForwardSetup
